import Mathlib

/-!
Shallow embedding of the inventory service implemented in `main.py` /
`schemas_sql.py`.  The SQLite tables (`suppliers`, `categories`, `products`,
`inventory_movements`) become Lean lists of rows; each FastAPI handler becomes
a pure function on a `DB` value, returning `Except ApiError` where the handler
can raise an `HTTPException`.  Timestamps are stored by the code as ISO-8601
strings, whose lexicographic order agrees with chronological order; they are
modelled here as integers.  SQLite `REAL` columns (`price`, `cost`) are
modelled as rationals; SQLite `INTEGER` columns as `Int` (row ids as `Nat`,
mirroring AUTOINCREMENT which never reuses ids).
-/

/-- Row of the `suppliers` table (`init_db` in `main.py`). -/
structure Supplier where
  id : Nat
  name : String
  email : Option String := none
  phone : Option String := none
  address : Option String := none
  deriving Repr, DecidableEq

/-- Row of the `categories` table. -/
structure Category where
  id : Nat
  name : String
  deriving Repr, DecidableEq

/-- Row of the `products` table.  Column defaults follow the SQL schema
(`price`/`cost`/`quantity`/`reorder_level` default 0, `is_active` default 1). -/
structure Product where
  id : Nat
  sku : String
  name : String
  description : Option String := none
  price : Rat := 0
  cost : Rat := 0
  quantity : Int := 0
  reorder_level : Int := 0
  is_active : Bool := true
  category_id : Option Nat := none
  supplier_id : Option Nat := none
  deriving Repr, DecidableEq

/-- Row of the `inventory_movements` table. -/
structure Movement where
  id : Nat
  product_id : Nat
  change : Int
  reason : String
  reference : Option String := none
  created_at : Int
  deriving Repr, DecidableEq

/-- The persistent store: the four tables plus the AUTOINCREMENT counters. -/
structure DB where
  suppliers : List Supplier := []
  categories : List Category := []
  products : List Product := []
  movements : List Movement := []
  nextSupplierId : Nat := 1
  nextCategoryId : Nat := 1
  nextProductId : Nat := 1
  nextMovementId : Nat := 1
  deriving Repr, DecidableEq

/-- An `HTTPException` raised by a handler: 404 (`notFound`) or 400
(`badRequest`), with its `detail` string. -/
inductive ApiError where
  | notFound (detail : String)
  | badRequest (detail : String)
  deriving Repr, DecidableEq

deriving instance DecidableEq for Except

/-- Request body of `POST /suppliers` (`SupplierCreate` in `schemas_sql.py`). -/
structure SupplierCreate where
  name : String
  email : Option String := none
  phone : Option String := none
  address : Option String := none
  deriving Repr, DecidableEq

/-- Request body of `POST /categories` (`CategoryCreate`). -/
structure CategoryCreate where
  name : String
  deriving Repr, DecidableEq

/-- Request body of `POST /products` (`ProductCreate`).  Pydantic enforces
`price ≥ 0` and `cost ≥ 0` (`Field(ge=0)`), but places no bound on `quantity`
or `reorder_level`. -/
structure ProductCreate where
  sku : String
  name : String
  description : Option String := none
  price : Rat := 0
  cost : Rat := 0
  quantity : Int := 0
  reorder_level : Int := 0
  is_active : Bool := true
  category_id : Option Nat := none
  supplier_id : Option Nat := none
  deriving Repr, DecidableEq

/-- Request body of `PATCH /products/:id` (`ProductUpdate`): every field
optional; `none` models a field absent from the request
(`model_dump(exclude_unset=True)`). -/
structure ProductUpdate where
  name : Option String := none
  description : Option String := none
  price : Option Rat := none
  cost : Option Rat := none
  quantity : Option Int := none
  reorder_level : Option Int := none
  is_active : Option Bool := none
  category_id : Option Nat := none
  supplier_id : Option Nat := none
  deriving Repr, DecidableEq

/-- Request body of `POST /movements` (`MovementCreate`).  Note the schema
places no constraint on `change`; any integer, including 0, validates. -/
structure MovementCreate where
  product_id : Nat
  change : Int
  reason : String
  reference : Option String := none
  deriving Repr, DecidableEq

/-- The query `SELECT * FROM products WHERE id=?` followed by `fetchone`. -/
def findProduct (db : DB) (pid : Nat) : Option Product :=
  db.products.find? fun p => p.id == pid

/-- Handler `create_supplier` (`POST /suppliers`): insert a row and return it.
No validation, so it cannot fail. -/
def create_supplier (db : DB) (payload : SupplierCreate) : DB × Supplier :=
  let s : Supplier :=
    { id := db.nextSupplierId, name := payload.name, email := payload.email,
      phone := payload.phone, address := payload.address }
  ({ db with suppliers := db.suppliers ++ [s],
             nextSupplierId := db.nextSupplierId + 1 }, s)

/-- Handler `create_category` (`POST /categories`): the UNIQUE constraint on
`name` makes a duplicate insert raise, mapped to HTTP 400. -/
def create_category (db : DB) (payload : CategoryCreate) :
    Except ApiError (DB × Category) :=
  if db.categories.any fun c => c.name == payload.name then
    .error (.badRequest "Category name already exists")
  else
    let c : Category := { id := db.nextCategoryId, name := payload.name }
    .ok ({ db with categories := db.categories ++ [c],
                   nextCategoryId := db.nextCategoryId + 1 }, c)

/-- Handler `create_product` (`POST /products`, `main.py` lines 158-186):
reject a duplicate SKU with HTTP 400, otherwise insert the row exactly as
given by the payload (the initial quantity is written directly to the product
row; no movement row is created) and return it. -/
def create_product (db : DB) (payload : ProductCreate) :
    Except ApiError (DB × Product) :=
  if db.products.any fun p => p.sku == payload.sku then
    .error (.badRequest "SKU already exists")
  else
    let p : Product :=
      { id := db.nextProductId, sku := payload.sku, name := payload.name,
        description := payload.description, price := payload.price,
        cost := payload.cost, quantity := payload.quantity,
        reorder_level := payload.reorder_level, is_active := payload.is_active,
        category_id := payload.category_id, supplier_id := payload.supplier_id }
    .ok ({ db with products := db.products ++ [p],
                   nextProductId := db.nextProductId + 1 }, p)

/-- True when no field of the `PATCH /products/:id` payload was set
(`if not data` in `update_product`). -/
def ProductUpdate.isUnset (u : ProductUpdate) : Bool :=
  u.name.isNone && u.description.isNone && u.price.isNone && u.cost.isNone &&
  u.quantity.isNone && u.reorder_level.isNone && u.is_active.isNone &&
  u.category_id.isNone && u.supplier_id.isNone

/-- Apply the set fields of a `PATCH /products/:id` payload to one row
(the generated `UPDATE products SET ... WHERE id=?`). -/
def applyUpdate (p : Product) (u : ProductUpdate) : Product :=
  { p with
    name := u.name.getD p.name,
    description := match u.description with
      | some d => some d
      | none => p.description,
    price := u.price.getD p.price,
    cost := u.cost.getD p.cost,
    quantity := u.quantity.getD p.quantity,
    reorder_level := u.reorder_level.getD p.reorder_level,
    is_active := u.is_active.getD p.is_active,
    category_id := match u.category_id with
      | some c => some c
      | none => p.category_id,
    supplier_id := match u.supplier_id with
      | some s => some s
      | none => p.supplier_id }

/-- Handler `update_product` (`PATCH /products/:id`, `main.py` lines 228-252):
404 when the product does not exist; with an empty payload return the current
row unchanged; otherwise overwrite the set fields (including, possibly,
`quantity`, which bypasses the ledger) and return the updated row. -/
def update_product (db : DB) (pid : Nat) (u : ProductUpdate) :
    Except ApiError (DB × Product) :=
  match findProduct db pid with
  | none => .error (.notFound "Product not found")
  | some p =>
    if u.isUnset then
      .ok (db, p)
    else
      .ok ({ db with products := db.products.map fun q =>
               if q.id == pid then applyUpdate q u else q },
           applyUpdate p u)

/-- Handler `delete_product` (`DELETE /products/:id`, `main.py` lines
254-261): 404 when the product does not exist, otherwise
`DELETE FROM products WHERE id=?`.  Only the products table is touched;
foreign keys are not enforced (no `PRAGMA foreign_keys`), so movement rows
referencing the product survive. -/
def delete_product (db : DB) (pid : Nat) : Except ApiError DB :=
  match findProduct db pid with
  | none => .error (.notFound "Product not found")
  | some _ => .ok { db with products := db.products.filter fun p => p.id != pid }

/-- Handler `create_movement` (`POST /movements`, `main.py` lines 264-285):
look up the product (404 when missing); compute `new_qty`; reject with HTTP
400 "Insufficient stock" when it is negative, before any write; otherwise
update the product's cached quantity, insert exactly one movement row stamped
with the current time, and return that row.  (`int(prod["quantity"] or 0)`
differs from the stored quantity only when the column is NULL, which its
NOT NULL constraint excludes.) -/
def create_movement (db : DB) (payload : MovementCreate) (now : Int) :
    Except ApiError (DB × Movement) :=
  match findProduct db payload.product_id with
  | none => .error (.notFound "Product not found")
  | some prod =>
    let new_qty := prod.quantity + payload.change
    if new_qty < 0 then
      .error (.badRequest "Insufficient stock")
    else
      let m : Movement :=
        { id := db.nextMovementId, product_id := payload.product_id,
          change := payload.change, reason := payload.reason,
          reference := payload.reference, created_at := now }
      .ok ({ db with
               products := db.products.map fun p =>
                 if p.id == payload.product_id then
                   { p with quantity := new_qty }
                 else p,
               movements := db.movements ++ [m],
               nextMovementId := db.nextMovementId + 1 }, m)

/-- SQLite `SUM` over an integer column: NULL (here `none`) when there are no
rows, the sum otherwise. -/
def sqlSumInt (xs : List Int) : Option Int :=
  if xs.isEmpty then none else some xs.sum

/-- SQLite `SUM` over a REAL expression: NULL when there are no rows. -/
def sqlSumRat (xs : List Rat) : Option Rat :=
  if xs.isEmpty then none else some xs.sum

/-- Handler `stock_valuation` (`GET /analytics/stock-valuation`, `main.py`
lines 312-322): one aggregate query over all products (no `is_active`
filter), each NULL sum coerced to 0 by `or 0`, returned as the JSON object
the handler builds, modelled as its ordered key/value pairs. -/
def stock_valuation (db : DB) : List (String × Rat) :=
  let cost_value : Rat :=
    (sqlSumRat (db.products.map fun p => (p.quantity : Rat) * p.cost)).getD 0
  let retail_value : Rat :=
    (sqlSumRat (db.products.map fun p => (p.quantity : Rat) * p.price)).getD 0
  let total_qty : Int :=
    (sqlSumInt (db.products.map Product.quantity)).getD 0
  [("total_quantity", (total_qty : Rat)),
   ("inventory_cost_value", cost_value),
   ("inventory_retail_value", retail_value)]

/-- Filter of the two `low_stock` queries: `is_active=1 AND quantity <= ?`
with the explicit threshold, else `is_active=1 AND quantity <= reorder_level`. -/
def lowStockPred (threshold : Option Int) (p : Product) : Bool :=
  p.is_active && match threshold with
    | some t => decide (p.quantity ≤ t)
    | none => decide (p.quantity ≤ p.reorder_level)

/-- Comparator realising `ORDER BY quantity ASC`. -/
def qtyLe (a b : Product) : Bool := decide (a.quantity ≤ b.quantity)

/-- Handler `low_stock` (`GET /analytics/low-stock`, `main.py` lines 324-338). -/
def low_stock (db : DB) (threshold : Option Int) : List Product :=
  (db.products.filter (lowStockPred threshold)).mergeSort qtyLe

/-- Seconds in a day, fixing the time unit of the integer timestamps
(`timedelta(days=...)`). -/
def secondsPerDay : Int := 86400

/-- The `created_at >= since` filter with `since = now - timedelta(days)`. -/
def inWindow (now : Int) (days : Nat) (m : Movement) : Bool :=
  decide (now - (days : Int) * secondsPerDay ≤ m.created_at)

/-- Movement rows inside the trailing window. -/
def windowMovements (db : DB) (now : Int) (days : Nat) : List Movement :=
  db.movements.filter (inWindow now days)

/-- `SUM(ABS(change))` of the rows of one `GROUP BY product_id` group. -/
def movedSum (ms : List Movement) (pid : Nat) : Int :=
  ((ms.filter fun m => m.product_id == pid).map fun m => |m.change|).sum

/-- The grouped rows `(product_id, moved)` of the `top_movers` query, one per
distinct `product_id` occurring in the window. -/
def groupRows (db : DB) (now : Int) (days : Nat) : List (Nat × Int) :=
  ((windowMovements db now days).map Movement.product_id).dedup.map
    fun pid => (pid, movedSum (windowMovements db now days) pid)

/-- One element of the `top_movers` response. -/
structure TopMover where
  product_id : Nat
  sku : String
  name : String
  moved : Int
  deriving Repr, DecidableEq

/-- Comparator realising `ORDER BY moved DESC`. -/
def movedDesc (a b : Nat × Int) : Bool := decide (b.2 ≤ a.2)

/-- The body of the `top_movers` result loop: look the product up by id,
dropping the row when it no longer exists (`if product`). -/
def annotateRow (db : DB) (r : Nat × Int) : Option TopMover :=
  match findProduct db r.1 with
  | none => none
  | some p =>
    some { product_id := r.1, sku := p.sku, name := p.name, moved := r.2 }

/-- Handler `top_movers` (`GET /analytics/top-movers`, `main.py` lines
340-364): group the windowed movements by product, order by `moved`
descending, apply `LIMIT`, then annotate each surviving row from the products
table. -/
def top_movers (db : DB) (days limit : Nat) (now : Int) : List TopMover :=
  (((groupRows db now days).mergeSort movedDesc).take limit).filterMap
    (annotateRow db)

/-- A state-mutating request to the service.  (The remaining endpoints —
the list/get handlers and the two analytics handlers — only run `SELECT`
queries and are modelled above as pure functions of the `DB`.) -/
inductive Op where
  | createSupplier (payload : SupplierCreate)
  | createCategory (payload : CategoryCreate)
  | createProduct (payload : ProductCreate)
  | updateProduct (pid : Nat) (payload : ProductUpdate)
  | deleteProduct (pid : Nat)
  | createMovement (payload : MovementCreate) (now : Int)
  deriving Repr, DecidableEq

/-- The store after serving one request: a failing handler raises before or
instead of its writes, leaving the store unchanged. -/
def applyOp (db : DB) (op : Op) : DB :=
  match op with
  | .createSupplier payload => (create_supplier db payload).1
  | .createCategory payload =>
    match create_category db payload with
    | .ok (db', _) => db'
    | .error _ => db
  | .createProduct payload =>
    match create_product db payload with
    | .ok (db', _) => db'
    | .error _ => db
  | .updateProduct pid payload =>
    match update_product db pid payload with
    | .ok (db', _) => db'
    | .error _ => db
  | .deleteProduct pid =>
    match delete_product db pid with
    | .ok db' => db'
    | .error _ => db
  | .createMovement payload now =>
    match create_movement db payload now with
    | .ok (db', _) => db'
    | .error _ => db

/-- The store after serving a sequence of requests. -/
def applyOps (db : DB) (ops : List Op) : DB := ops.foldl applyOp db

/-- The store after a sequence of `POST /movements` calls (each given with its
wall-clock time); failing calls leave the store unchanged. -/
def applyMovements (db : DB) (calls : List (MovementCreate × Int)) : DB :=
  calls.foldl (fun d c => applyOp d (.createMovement c.1 c.2)) db

/-- Sum of the `change` column over the movement rows of one product. -/
def sumChanges (ms : List Movement) (pid : Nat) : Int :=
  ((ms.filter fun m => m.product_id == pid).map Movement.change).sum

/-- The spec's ledger invariant: every product's cached quantity equals the
sum of the changes of its movement rows. -/
def LedgerInv (db : DB) : Prop :=
  ∀ p ∈ db.products, p.quantity = sumChanges db.movements p.id

/-- The spec's non-negativity invariant on cached quantities. -/
def QtyNonneg (db : DB) : Prop :=
  ∀ p ∈ db.products, 0 ≤ p.quantity

instance (db : DB) : Decidable (LedgerInv db) :=
  inferInstanceAs (Decidable (∀ p ∈ db.products, p.quantity = sumChanges db.movements p.id))

instance (db : DB) : Decidable (QtyNonneg db) :=
  inferInstanceAs (Decidable (∀ p ∈ db.products, 0 ≤ p.quantity))

/-- Sample store for the `record_movement` success scenario: one product with
quantity 10. -/
def dbC2 : DB :=
  { products := [{ id := 1, sku := "SKU-1", name := "Widget", quantity := 10 }] }

/-- The single product row of `dbC2`. -/
def pC2 : Product := { id := 1, sku := "SKU-1", name := "Widget", quantity := 10 }

/-- The spec's sale movement request: change -3 with reason "sale". -/
def payC2 : MovementCreate := { product_id := 1, change := -3, reason := "sale" }

/-- Store produced by creating a product with initial quantity 5 in an empty
store: it has movement sum 0 but cached quantity 5. -/
def dbC1bad : DB :=
  { products := [{ id := 1, sku := "W", name := "W", quantity := 5 }],
    nextProductId := 2 }

/-- The product row of `dbC1bad`. -/
def pC1bad : Product := { id := 1, sku := "W", name := "W", quantity := 5 }

/-- Store produced by creating a product with initial quantity 0 in an empty
store. -/
def dbC1ok : DB :=
  { products := [{ id := 1, sku := "W", name := "W", quantity := 0 }],
    nextProductId := 2 }

/-- The product row of `dbC1ok`. -/
def pC1ok : Product := { id := 1, sku := "W", name := "W", quantity := 0 }

/-- A sample sequence of `POST /movements` calls against `dbC1ok`. -/
def callsC1 : List (MovementCreate × Int) :=
  [({ product_id := 1, change := 3, reason := "purchase" }, 10),
   ({ product_id := 1, change := -2, reason := "sale" }, 20)]

/-- Sample store for the zero-change claim: one product with quantity 5. -/
def dbC4 : DB :=
  { products := [{ id := 1, sku := "Z", name := "Zero", quantity := 5 }] }

/-- The product row of `dbC4`. -/
def pC4 : Product := { id := 1, sku := "Z", name := "Zero", quantity := 5 }

/-- A zero-change movement request. -/
def payC4 : MovementCreate := { product_id := 1, change := 0, reason := "adjustment" }

/-- Sample store for the non-negativity claim. -/
def dbC5 : DB :=
  { products := [{ id := 1, sku := "N", name := "NonNeg", quantity := 5 }] }

/-- A withdrawal request against `dbC5`. -/
def payC5 : MovementCreate := { product_id := 1, change := -2, reason := "sale" }

/-- Sample store for the delete-product frame claim: one product with one
movement row referencing it. -/
def dbC10 : DB :=
  { products := [{ id := 1, sku := "D", name := "Del", quantity := 3 }],
    movements := [{ id := 1, product_id := 1, change := 3, reason := "purchase",
                    created_at := 5 }] }

/-- The store `dbC10` after `DELETE /products/1`: the product row is gone, its
movement row is not. -/
def dbC10del : DB :=
  { products := [],
    movements := [{ id := 1, product_id := 1, change := 3, reason := "purchase",
                    created_at := 5 }] }

/-- Sample store for the `top_movers` scenario of the spec: products P1 and
P2, movements `[(P1,-3), (P1,+3), (P2,-1)]`, all inside the 30-day window at
time 100. -/
def dbC9 : DB :=
  { products := [{ id := 1, sku := "P1", name := "P1" },
                 { id := 2, sku := "P2", name := "P2" }],
    movements := [
      { id := 1, product_id := 1, change := -3, reason := "sale", created_at := 50 },
      { id := 2, product_id := 1, change := 3, reason := "purchase", created_at := 60 },
      { id := 3, product_id := 2, change := -1, reason := "sale", created_at := 70 }] }

/- ------------------------------------------------------------------ -/
/- Helper lemmas shared by several claims.                             -/
/- ------------------------------------------------------------------ -/

theorem sumChanges_append (ms : List Movement) (m : Movement) (pid : Nat) :
    sumChanges (ms ++ [m]) pid =
      sumChanges ms pid + (if m.product_id = pid then m.change else 0) := by
  unfold sumChanges
  rw [List.filter_append]
  by_cases h : m.product_id = pid
  · simp [h]
  · simp [h]

theorem sumChanges_eq_zero_of_fresh (ms : List Movement) (pid : Nat)
    (h : ∀ m ∈ ms, m.product_id ≠ pid) : sumChanges ms pid = 0 := by
  unfold sumChanges
  have hnil : ms.filter (fun m => m.product_id == pid) = [] := by
    rw [List.filter_eq_nil_iff]
    intro m hm
    simpa using h m hm
  rw [hnil]
  rfl

/-- Evaluation of `create_movement` on the success path. -/
theorem create_movement_eq_of_nonneg (db : DB) (payload : MovementCreate)
    (now : Int) (p : Product)
    (hp : findProduct db payload.product_id = some p)
    (hq : 0 ≤ p.quantity + payload.change) :
    create_movement db payload now =
      .ok ({ db with
               products := db.products.map fun q =>
                 if q.id == payload.product_id then
                   { q with quantity := p.quantity + payload.change }
                 else q,
               movements := db.movements ++
                 [{ id := db.nextMovementId, product_id := payload.product_id,
                    change := payload.change, reason := payload.reason,
                    reference := payload.reference, created_at := now }],
               nextMovementId := db.nextMovementId + 1 },
           { id := db.nextMovementId, product_id := payload.product_id,
             change := payload.change, reason := payload.reason,
             reference := payload.reference, created_at := now }) := by
  unfold create_movement
  rw [hp]
  simp only [if_neg (not_lt.mpr hq)]

/-- C2: for an existing product with quantity `q` and a change `c` with
`q + c ≥ 0`, `record_movement` succeeds: it persists quantity `q + c` on that
product's row (and on no other row), appends exactly one movement row carrying
the requested `product_id`, `change`, `reason` and `reference` together with
the system-set creation timestamp, and returns that created movement. -/
theorem create_movement_success (db : DB) (payload : MovementCreate)
    (now : Int) (p : Product)
    (hp : findProduct db payload.product_id = some p)
    (hq : 0 ≤ p.quantity + payload.change) :
    ∃ db' m, create_movement db payload now = .ok (db', m) ∧
      m.product_id = payload.product_id ∧
      m.change = payload.change ∧
      m.reason = payload.reason ∧
      m.reference = payload.reference ∧
      m.created_at = now ∧
      db'.movements = db.movements ++ [m] ∧
      (∀ q ∈ db'.products, q.id = payload.product_id →
        q.quantity = p.quantity + payload.change) ∧
      (∃ q ∈ db'.products, q.id = payload.product_id) ∧
      (∀ q ∈ db.products, q.id ≠ payload.product_id → q ∈ db'.products) := by
  have hp' : db.products.find? (fun q => q.id == payload.product_id) = some p := hp
  have hmem : p ∈ db.products := List.mem_of_find?_eq_some hp'
  have hpid : (p.id == payload.product_id) = true := by
    simpa using List.find?_some hp'
  refine ⟨_, _, create_movement_eq_of_nonneg db payload now p hp hq,
    rfl, rfl, rfl, rfl, rfl, rfl, ?_, ?_, ?_⟩
  · intro q hq' hid
    simp only [List.mem_map] at hq'
    obtain ⟨r, hr, rfl⟩ := hq'
    by_cases hb : (r.id == payload.product_id) = true
    · rw [if_pos hb]
    · rw [if_neg hb] at hid ⊢
      exact absurd hid (by simpa using hb)
  · refine ⟨(fun q : Product =>
        if q.id == payload.product_id then
          { q with quantity := p.quantity + payload.change }
        else q) p, List.mem_map_of_mem _ hmem, ?_⟩
    simp only [if_pos hpid]
    simpa using hpid
  · intro q hmemq hne
    have hb : (q.id == payload.product_id) = false := by simpa using hne
    have : (fun r : Product =>
        if r.id == payload.product_id then
          { r with quantity := p.quantity + payload.change }
        else r) q = q := by
      simp [hb]
    exact this ▸ List.mem_map_of_mem _ hmemq

/-- Witness for C2, the spec's scenario: start quantity 10,
`record_movement(change=-3, reason="sale")` succeeds, leaving quantity 7 and
one appended movement row. -/
theorem create_movement_success_witness :
    ∃ db' m, create_movement dbC2 payC2 0 = .ok (db', m) ∧
      m.product_id = payC2.product_id ∧
      m.change = payC2.change ∧
      m.reason = payC2.reason ∧
      m.reference = payC2.reference ∧
      m.created_at = 0 ∧
      db'.movements = dbC2.movements ++ [m] ∧
      (∀ q ∈ db'.products, q.id = payC2.product_id →
        q.quantity = pC2.quantity + payC2.change) ∧
      (∃ q ∈ db'.products, q.id = payC2.product_id) ∧
      (∀ q ∈ dbC2.products, q.id ≠ payC2.product_id → q ∈ db'.products) :=
  create_movement_success dbC2 payC2 0 pC2 (by decide) (by decide)

/-- C3: when the existing product's quantity plus the requested change is
negative, `record_movement` fails with the InsufficientStock error (HTTP 400
"Insufficient stock") raised before any write, so serving the request leaves
the store exactly as it was: no quantity update and no movement row. -/
theorem create_movement_insufficient_stock (db : DB) (payload : MovementCreate)
    (now : Int) (p : Product)
    (hp : findProduct db payload.product_id = some p)
    (hq : p.quantity + payload.change < 0) :
    create_movement db payload now = .error (.badRequest "Insufficient stock") ∧
    applyOp db (.createMovement payload now) = db := by
  have h1 : create_movement db payload now =
      .error (.badRequest "Insufficient stock") := by
    unfold create_movement
    rw [hp]
    simp only [if_pos hq]
  refine ⟨h1, ?_⟩
  simp only [applyOp, h1]

/-- Witness for C3, the spec's scenario: quantity 7, change -10 is rejected
with "Insufficient stock" and the store is unchanged. -/
theorem create_movement_insufficient_stock_witness :
    create_movement
        { products := [{ id := 1, sku := "SKU-1", name := "Widget", quantity := 7 }] }
        { product_id := 1, change := -10, reason := "sale" } 0 =
      .error (.badRequest "Insufficient stock") ∧
    applyOp { products := [{ id := 1, sku := "SKU-1", name := "Widget", quantity := 7 }] }
        (.createMovement { product_id := 1, change := -10, reason := "sale" } 0) =
      { products := [{ id := 1, sku := "SKU-1", name := "Widget", quantity := 7 }] } :=
  create_movement_insufficient_stock
    { products := [{ id := 1, sku := "SKU-1", name := "Widget", quantity := 7 }] }
    { product_id := 1, change := -10, reason := "sale" } 0
    { id := 1, sku := "SKU-1", name := "Widget", quantity := 7 }
    (by decide) (by decide)

/-- C10: a successful `delete_product` removes exactly the targeted product
row: the movements table (in particular every movement row referencing the
deleted product), the suppliers table and the categories table are unchanged,
and the products table keeps precisely the rows with a different id. -/
theorem delete_product_frame (db : DB) (pid : Nat) (db' : DB)
    (h : delete_product db pid = .ok db') :
    db'.movements = db.movements ∧
    db'.suppliers = db.suppliers ∧
    db'.categories = db.categories ∧
    db'.products = db.products.filter (fun p => p.id != pid) ∧
    (∀ m ∈ db.movements, m.product_id = pid → m ∈ db'.movements) := by
  unfold delete_product at h
  cases hf : findProduct db pid with
  | none => rw [hf] at h; cases h
  | some p =>
    rw [hf] at h
    simp only [Except.ok.injEq] at h
    subst h
    exact ⟨rfl, rfl, rfl, rfl, fun m hm _ => hm⟩

/-- Witness for C10: deleting the product of `dbC10` keeps its movement row
and changes nothing else. -/
theorem delete_product_frame_witness :
    dbC10del.movements = dbC10.movements ∧
    dbC10del.suppliers = dbC10.suppliers ∧
    dbC10del.categories = dbC10.categories ∧
    dbC10del.products = dbC10.products.filter (fun p => p.id != 1) ∧
    (∀ m ∈ dbC10.movements, m.product_id = 1 → m ∈ dbC10del.movements) :=
  delete_product_frame dbC10 1 dbC10del (by decide)

/-- C4 counterexample: `record_movement` does not reject a zero change — on a
product with quantity 5, change 0 succeeds and a movement row is written. -/
theorem create_movement_zero_change_succeeds :
    create_movement dbC4 payC4 0 =
      .ok ({ products := [{ id := 1, sku := "Z", name := "Zero", quantity := 5 }],
             movements := [{ id := 1, product_id := 1, change := 0,
                             reason := "adjustment", created_at := 0 }],
             nextMovementId := 2 },
           { id := 1, product_id := 1, change := 0, reason := "adjustment",
             created_at := 0 }) := by
  decide

/-- C4 amended: `record_movement` does not require a non-zero change; for an
existing product with non-negative quantity a call with change 0 succeeds,
appending exactly one movement row with change 0 and leaving the products
table unchanged. -/
theorem create_movement_zero_change_records_noop (db : DB)
    (payload : MovementCreate) (now : Int) (p : Product)
    (hp : findProduct db payload.product_id = some p)
    (hz : payload.change = 0)
    (hq0 : 0 ≤ p.quantity)
    (hnd : (db.products.map Product.id).Nodup) :
    ∃ db' m, create_movement db payload now = .ok (db', m) ∧
      m.change = 0 ∧
      db'.movements = db.movements ++ [m] ∧
      db'.products = db.products := by
  have hp' : db.products.find? (fun q => q.id == payload.product_id) = some p := hp
  have hmem : p ∈ db.products := List.mem_of_find?_eq_some hp'
  have hpid : p.id = payload.product_id := by
    simpa using List.find?_some hp'
  have hq : 0 ≤ p.quantity + payload.change := by
    rw [hz, add_zero]; exact hq0
  refine ⟨_, _, create_movement_eq_of_nonneg db payload now p hp hq, hz, rfl, ?_⟩
  have hfix : ∀ q ∈ db.products,
      (if q.id == payload.product_id then
        { q with quantity := p.quantity + payload.change } else q) = q := by
    intro q hqmem
    by_cases hb : (q.id == payload.product_id) = true
    · have hqid : q.id = payload.product_id := by simpa using hb
      have hqp : q = p :=
        List.inj_on_of_nodup_map hnd hqmem hmem (by rw [hqid, hpid])
      subst hqp
      rw [if_pos hb, hz, add_zero]
    · rw [if_neg hb]
  calc (db.products.map fun q =>
          if q.id == payload.product_id then
            { q with quantity := p.quantity + payload.change } else q)
      = db.products.map id := List.map_congr_left hfix
    _ = db.products := List.map_id db.products

/-- Witness for C4's amended claim at `dbC4`. -/
theorem create_movement_zero_change_records_noop_witness :
    ∃ db' m, create_movement dbC4 payC4 0 = .ok (db', m) ∧
      m.change = 0 ∧
      db'.movements = dbC4.movements ++ [m] ∧
      db'.products = dbC4.products :=
  create_movement_zero_change_records_noop dbC4 payC4 0 pC4
    (by decide) (by decide) (by decide) (by decide)

/-- C5 counterexample: the quantity invariant does not survive the catalog
path — `create_product` accepts a negative initial quantity (the pydantic
schema constrains `price` and `cost` with `ge=0` but not `quantity`) and
persists a product row with quantity -5. -/
theorem create_product_negative_quantity_accepted :
    create_product ({} : DB) { sku := "NEG", name := "Neg", quantity := -5 } =
      .ok ({ products := [{ id := 1, sku := "NEG", name := "Neg", quantity := -5 }],
             nextProductId := 2 },
           { id := 1, sku := "NEG", name := "Neg", quantity := -5 }) ∧
    ((-5 : Int) < 0) := by
  decide

/-- C5 amended: non-negativity is maintained by the ledger path only — serving
any `POST /movements` request preserves `QtyNonneg` (rejected requests change
nothing; accepted ones write the checked non-negative `new_qty`) — whereas
`create_product` and `update_product` do not validate `quantity` and can
persist a negative one. -/
theorem qty_nonneg_preserved_by_create_movement (db : DB)
    (payload : MovementCreate) (now : Int)
    (h : QtyNonneg db) :
    QtyNonneg (applyOp db (.createMovement payload now)) := by
  simp only [applyOp]
  cases heq : create_movement db payload now with
  | error e => exact h
  | ok r =>
    obtain ⟨db', m⟩ := r
    unfold create_movement at heq
    cases hf : findProduct db payload.product_id with
    | none => rw [hf] at heq; cases heq
    | some prod =>
      rw [hf] at heq
      by_cases hlt : prod.quantity + payload.change < 0
      · simp only [if_pos hlt] at heq
        cases heq
      · simp only [if_neg hlt, Except.ok.injEq, Prod.mk.injEq] at heq
        obtain ⟨hdb, hm⟩ := heq
        subst hdb
        intro q hq
        simp only [List.mem_map] at hq
        obtain ⟨r, hr, rfl⟩ := hq
        by_cases hb : (r.id == payload.product_id) = true
        · rw [if_pos hb]
          exact not_lt.mp hlt
        · rw [if_neg hb]
          exact h r hr

/-- Witness for C5's amended claim: a withdrawal of 2 from quantity 5 keeps
every quantity non-negative. -/
theorem qty_nonneg_preserved_by_create_movement_witness :
    QtyNonneg (applyOp dbC5 (.createMovement payC5 0)) :=
  qty_nonneg_preserved_by_create_movement dbC5 payC5 0 (by decide)

/-- C7 counterexample: the valuation response does not use the keys
`cost_value` and `retail_value` claimed by the spec — already on an empty
store the handler returns the keys `total_quantity`, `inventory_cost_value`,
`inventory_retail_value`. -/
theorem stock_valuation_key_names_differ :
    stock_valuation ({} : DB) ≠
      [("total_quantity", 0), ("cost_value", 0), ("retail_value", 0)] ∧
    (stock_valuation ({} : DB)).map Prod.fst =
      ["total_quantity", "inventory_cost_value", "inventory_retail_value"] := by
  decide

/-- C7 amended: `stock_valuation` returns the JSON object whose keys are
`total_quantity`, `inventory_cost_value` and `inventory_retail_value`, whose
values are `sum(quantity)`, `sum(quantity * cost)` and `sum(quantity * price)`
over all products (active and inactive alike); with zero products every sum
degrades to 0 (`or 0` on the NULL SQL sums), not an error. -/
theorem stock_valuation_sums (db : DB) :
    stock_valuation db =
      [("total_quantity", ((db.products.map Product.quantity).sum : Rat)),
       ("inventory_cost_value",
         (db.products.map fun p => (p.quantity : Rat) * p.cost).sum),
       ("inventory_retail_value",
         (db.products.map fun p => (p.quantity : Rat) * p.price).sum)] := by
  unfold stock_valuation sqlSumInt sqlSumRat
  cases hdb : db.products with
  | nil => simp
  | cons a l => simp

/-- Serving one `POST /movements` request preserves the ledger invariant:
a rejected request changes nothing, and an accepted one adds the same change
to the product's cached quantity and to its movement sum. -/
theorem ledgerInv_preserved_createMovement (db : DB) (payload : MovementCreate)
    (now : Int) (h : LedgerInv db) :
    LedgerInv (applyOp db (.createMovement payload now)) := by
  simp only [applyOp]
  cases heq : create_movement db payload now with
  | error e => exact h
  | ok r =>
    obtain ⟨db', m⟩ := r
    unfold create_movement at heq
    cases hf : findProduct db payload.product_id with
    | none => rw [hf] at heq; cases heq
    | some prod =>
      have hf' : db.products.find? (fun q => q.id == payload.product_id) = some prod := hf
      have hprodmem : prod ∈ db.products := List.mem_of_find?_eq_some hf'
      have hprodid : prod.id = payload.product_id := by
        simpa using List.find?_some hf'
      rw [hf] at heq
      by_cases hlt : prod.quantity + payload.change < 0
      · simp only [if_pos hlt] at heq
        cases heq
      · simp only [if_neg hlt, Except.ok.injEq, Prod.mk.injEq] at heq
        obtain ⟨hdb, hm⟩ := heq
        subst hdb
        intro q hq
        simp only [List.mem_map] at hq
        obtain ⟨r, hr, rfl⟩ := hq
        by_cases hb : (r.id == payload.product_id) = true
        · have hrid : r.id = payload.product_id := by simpa using hb
          rw [if_pos hb]
          show prod.quantity + payload.change =
            sumChanges (db.movements ++
              [{ id := db.nextMovementId, product_id := payload.product_id,
                 change := payload.change, reason := payload.reason,
                 reference := payload.reference, created_at := now }]) r.id
          rw [sumChanges_append]
          have hsum : prod.quantity = sumChanges db.movements r.id := by
            rw [hrid, ← hprodid]
            exact h prod hprodmem
          rw [← hsum]
          simp [hrid]
        · have hrid : r.id ≠ payload.product_id := by simpa using hb
          rw [if_neg hb]
          show r.quantity =
            sumChanges (db.movements ++
              [{ id := db.nextMovementId, product_id := payload.product_id,
                 change := payload.change, reason := payload.reason,
                 reference := payload.reference, created_at := now }]) r.id
          rw [sumChanges_append]
          have : ¬ (payload.product_id = r.id) := fun hc => hrid hc.symm
          rw [if_neg this, add_zero]
          exact h r hr

/-- After any sequence of `POST /movements` calls the ledger invariant still
holds, provided it held at the start. -/
theorem ledgerInv_applyMovements (db : DB) (calls : List (MovementCreate × Int))
    (h : LedgerInv db) : LedgerInv (applyMovements db calls) := by
  induction calls generalizing db with
  | nil => exact h
  | cons c rest ih => exact ih _ (ledgerInv_preserved_createMovement db c.1 c.2 h)

/-- C1 counterexample: a product created through the catalog with initial
quantity 5 starts with no movement rows, so already after the empty sequence
of successful `record_movement` calls its cached quantity (5) differs from
the sum of its movements' changes (0). -/
theorem ledger_invariant_fails_nonzero_initial_qty :
    create_product ({} : DB) { sku := "W", name := "W", quantity := 5 } =
      .ok (dbC1bad, pC1bad) ∧
    ¬ LedgerInv dbC1bad := by
  decide

/-- C1 amended: the invariant `quantity = sum(changes)` is preserved by every
`record_movement` call, and a product created through the catalog satisfies it
exactly when its initial quantity is 0: starting from any store satisfying the
invariant, creating a product with initial quantity 0 (whose fresh id no
stored movement references) and then running any sequence of `record_movement`
calls leaves every product's cached quantity equal to the sum of the changes
of its movement rows.  (For a nonzero initial quantity `q0` the cached value
is offset: `quantity = q0 + sum(changes)`.) -/
theorem ledger_invariant_from_zero_initial_qty (db db' : DB)
    (payload : ProductCreate) (p : Product)
    (calls : List (MovementCreate × Int))
    (hInv : LedgerInv db)
    (hfresh : ∀ m ∈ db.movements, m.product_id ≠ db.nextProductId)
    (hq0 : payload.quantity = 0)
    (hcp : create_product db payload = .ok (db', p)) :
    LedgerInv (applyMovements db' calls) := by
  apply ledgerInv_applyMovements
  unfold create_product at hcp
  by_cases hdup : (db.products.any fun q => q.sku == payload.sku) = true
  · rw [if_pos hdup] at hcp; cases hcp
  · simp only [if_neg hdup, Except.ok.injEq, Prod.mk.injEq] at hcp
    obtain ⟨hdb, hp⟩ := hcp
    subst hdb
    intro q hq
    simp only [List.mem_append, List.mem_singleton] at hq
    rcases hq with hq | rfl
    · exact hInv q hq
    · show payload.quantity = sumChanges db.movements db.nextProductId
      rw [hq0, sumChanges_eq_zero_of_fresh db.movements db.nextProductId hfresh]

/-- Witness for C1's amended claim: create a product with initial quantity 0
in the empty store, then run a purchase of 3 and a sale of 2; the invariant
holds in the resulting store. -/
theorem ledger_invariant_from_zero_initial_qty_witness :
    LedgerInv (applyMovements dbC1ok callsC1) :=
  ledger_invariant_from_zero_initial_qty ({} : DB) dbC1ok
    { sku := "W", name := "W", quantity := 0 } pC1ok callsC1
    (by decide) (by decide) (by decide) (by decide)

/-- Serving any single request only ever appends to the movements table. -/
theorem movements_extend_applyOp (db : DB) (op : Op) :
    ∃ tl, (applyOp db op).movements = db.movements ++ tl := by
  cases op with
  | createSupplier payload =>
    exact ⟨[], by simp [applyOp, create_supplier]⟩
  | createCategory payload =>
    simp only [applyOp]
    cases heq : create_category db payload with
    | error e => exact ⟨[], by simp⟩
    | ok r =>
      obtain ⟨db', c⟩ := r
      unfold create_category at heq
      by_cases hdup : (db.categories.any fun d => d.name == payload.name) = true
      · rw [if_pos hdup] at heq; cases heq
      · simp only [if_neg hdup, Except.ok.injEq, Prod.mk.injEq] at heq
        obtain ⟨hdb, _⟩ := heq
        subst hdb
        exact ⟨[], by simp⟩
  | createProduct payload =>
    simp only [applyOp]
    cases heq : create_product db payload with
    | error e => exact ⟨[], by simp⟩
    | ok r =>
      obtain ⟨db', p⟩ := r
      unfold create_product at heq
      by_cases hdup : (db.products.any fun q => q.sku == payload.sku) = true
      · rw [if_pos hdup] at heq; cases heq
      · simp only [if_neg hdup, Except.ok.injEq, Prod.mk.injEq] at heq
        obtain ⟨hdb, _⟩ := heq
        subst hdb
        exact ⟨[], by simp⟩
  | updateProduct pid payload =>
    simp only [applyOp]
    cases heq : update_product db pid payload with
    | error e => exact ⟨[], by simp⟩
    | ok r =>
      obtain ⟨db', p⟩ := r
      unfold update_product at heq
      cases hf : findProduct db pid with
      | none => rw [hf] at heq; cases heq
      | some q =>
        rw [hf] at heq
        by_cases hu : payload.isUnset = true
        · simp only [if_pos hu, Except.ok.injEq, Prod.mk.injEq] at heq
          obtain ⟨hdb, _⟩ := heq
          subst hdb
          exact ⟨[], by simp⟩
        · simp only [if_neg hu, Except.ok.injEq, Prod.mk.injEq] at heq
          obtain ⟨hdb, _⟩ := heq
          subst hdb
          exact ⟨[], by simp⟩
  | deleteProduct pid =>
    simp only [applyOp]
    cases heq : delete_product db pid with
    | error e => exact ⟨[], by simp⟩
    | ok db' =>
      unfold delete_product at heq
      cases hf : findProduct db pid with
      | none => rw [hf] at heq; cases heq
      | some q =>
        rw [hf] at heq
        simp only [Except.ok.injEq] at heq
        subst heq
        exact ⟨[], by simp⟩
  | createMovement payload now =>
    simp only [applyOp]
    cases heq : create_movement db payload now with
    | error e => exact ⟨[], by simp⟩
    | ok r =>
      obtain ⟨db', m⟩ := r
      unfold create_movement at heq
      cases hf : findProduct db payload.product_id with
      | none => rw [hf] at heq; cases heq
      | some prod =>
        rw [hf] at heq
        by_cases hlt : prod.quantity + payload.change < 0
        · simp only [if_pos hlt] at heq
          cases heq
        · simp only [if_neg hlt, Except.ok.injEq, Prod.mk.injEq] at heq
          obtain ⟨hdb, _⟩ := heq
          subst hdb
          exact ⟨_, rfl⟩

/-- C6: movements are append-only.  Across any sequence of requests — every
state-mutating endpoint of the service is an `Op`; the remaining endpoints
only run `SELECT` queries and are modelled as pure functions — the movements
table only grows at the tail: every movement row persisted at some point is
still present, unchanged and in place, after every subsequent operation.  In
particular no operation (not even `delete_product`) updates or deletes a
movement row. -/
theorem movements_append_only (db : DB) (ops : List Op) :
    ∃ tl, (applyOps db ops).movements = db.movements ++ tl := by
  induction ops generalizing db with
  | nil => exact ⟨[], by simp [applyOps]⟩
  | cons op rest ih =>
    obtain ⟨tl1, h1⟩ := movements_extend_applyOp db op
    obtain ⟨tl2, h2⟩ := ih (applyOp db op)
    refine ⟨tl1 ++ tl2, ?_⟩
    have hstep : applyOps db (op :: rest) = applyOps (applyOp db op) rest := rfl
    rw [hstep, h2, h1, List.append_assoc]

/-- C8: `low_stock` returns exactly the active products whose quantity is at
most the supplied threshold — or, when none is supplied, at most their own
reorder level — as a reordering of the filtered products table that is sorted
ascending by quantity; inactive products are never included. -/
theorem low_stock_correct (db : DB) (threshold : Option Int) :
    (low_stock db threshold).Perm
      (db.products.filter (lowStockPred threshold)) ∧
    (low_stock db threshold).Pairwise (fun a b => a.quantity ≤ b.quantity) ∧
    ∀ p : Product, p ∈ low_stock db threshold ↔
      (p ∈ db.products ∧ p.is_active = true ∧
        p.quantity ≤ (match threshold with
                      | some t => t
                      | none => p.reorder_level)) := by
  have hperm : (low_stock db threshold).Perm
      (db.products.filter (lowStockPred threshold)) :=
    List.mergeSort_perm _ qtyLe
  have htrans : ∀ a b c : Product,
      qtyLe a b = true → qtyLe b c = true → qtyLe a c = true := by
    intro a b c hab hbc
    simp only [qtyLe, decide_eq_true_eq] at hab hbc ⊢
    exact le_trans hab hbc
  have htotal : ∀ a b : Product, (qtyLe a b || qtyLe b a) = true := by
    intro a b
    simp only [qtyLe, Bool.or_eq_true, decide_eq_true_eq]
    exact le_total _ _
  refine ⟨hperm, ?_, ?_⟩
  · have hs := List.sorted_mergeSort htrans htotal
      (db.products.filter (lowStockPred threshold))
    exact hs.imp fun {a b} h => by simpa [qtyLe] using h
  · intro p
    rw [hperm.mem_iff, List.mem_filter]
    cases threshold with
    | none => simp [lowStockPred, and_assoc]
    | some t => simp [lowStockPred, and_assoc]

/-- Unfolding of a successful row annotation in `top_movers`. -/
theorem annotateRow_spec (db : DB) (a : Nat × Int) (r : TopMover)
    (h : annotateRow db a = some r) :
    r.moved = a.2 ∧ r.product_id = a.1 ∧
    ∃ p ∈ db.products, p.id = a.1 ∧ r.sku = p.sku ∧ r.name = p.name := by
  unfold annotateRow at h
  cases hfp : findProduct db a.1 with
  | none => rw [hfp] at h; cases h
  | some p =>
    rw [hfp] at h
    simp only [Option.some.injEq] at h
    subst h
    have hfp' : db.products.find? (fun q => q.id == a.1) = some p := hfp
    refine ⟨rfl, rfl, p, List.mem_of_find?_eq_some hfp', ?_, rfl, rfl⟩
    simpa using List.find?_some hfp'

/-- A group row whose product still exists annotates successfully. -/
theorem annotateRow_isSome (db : DB) (a : Nat × Int)
    (h : ∃ p ∈ db.products, p.id = a.1) :
    (annotateRow db a).isSome = true := by
  obtain ⟨p, hp, hid⟩ := h
  have hfind : (db.products.find? fun q => q.id == a.1).isSome = true :=
    List.find?_isSome.mpr ⟨p, hp, by simp [hid]⟩
  unfold annotateRow findProduct
  cases hf : db.products.find? fun q => q.id == a.1 with
  | none => rw [hf] at hfind; cases hfind
  | some q => simp

/-- `filterMap` drops nothing when the function succeeds on every element. -/
theorem length_filterMap_of_isSome {α β : Type} (f : α → Option β) :
    ∀ l : List α, (∀ a ∈ l, (f a).isSome = true) →
      (l.filterMap f).length = l.length := by
  intro l
  induction l with
  | nil => intro _; rfl
  | cons a t ih =>
    intro h
    obtain ⟨b, hb⟩ := Option.isSome_iff_exists.mp (h a (by simp))
    rw [List.filterMap_cons, hb, List.length_cons, List.length_cons,
        ih fun x hx => h x (by simp [hx])]

/-- Every product with a movement in the window owns a group row carrying its
`moved` sum. -/
theorem mem_groupRows (db : DB) (now : Int) (days : Nat) (pid : Nat)
    (h : ∃ m ∈ db.movements, inWindow now days m = true ∧ m.product_id = pid) :
    (pid, movedSum (windowMovements db now days) pid) ∈ groupRows db now days := by
  obtain ⟨m, hm, hw, hpidm⟩ := h
  unfold groupRows
  apply List.mem_map_of_mem
  rw [List.mem_dedup]
  have hmW : m ∈ windowMovements db now days := by
    unfold windowMovements
    exact List.mem_filter.mpr ⟨hm, hw⟩
  have := List.mem_map_of_mem Movement.product_id hmW
  rwa [hpidm] at this

/-- Conversely, every group row is the `moved` sum of a product that has at
least one movement in the window. -/
theorem groupRows_spec (db : DB) (now : Int) (days : Nat) (r : Nat × Int)
    (h : r ∈ groupRows db now days) :
    r.2 = movedSum (windowMovements db now days) r.1 ∧
    ∃ m ∈ db.movements, inWindow now days m = true ∧ m.product_id = r.1 := by
  unfold groupRows at h
  simp only [List.mem_map] at h
  obtain ⟨pid, hpid, rfl⟩ := h
  refine ⟨rfl, ?_⟩
  rw [List.mem_dedup] at hpid
  simp only [List.mem_map] at hpid
  obtain ⟨m, hm, hpidm⟩ := hpid
  unfold windowMovements at hm
  rw [List.mem_filter] at hm
  exact ⟨m, hm.1, hm.2, hpidm⟩

/-- C9: over the movements created within the trailing `days`-day window from
the current time, grouped by product with `abs(change)` summed per product,
`top_movers` returns the top `limit` products by that sum in descending
order, each annotated with its SKU and name, and products with zero matching
movements are excluded rather than zero-filled.  Stated for stores whose
movement rows all reference an existing product: the result is sorted
descending by `moved`; its length is `limit` capped at the number of products
with a windowed movement; every returned row carries the product's windowed
`abs(change)` sum, its SKU and name, and a witnessing windowed movement; and
any product that has a windowed movement but is left out moved no more than
every returned row. -/
theorem top_movers_correct (db : DB) (days limit : Nat) (now : Int)
    (hint : ∀ m ∈ db.movements, ∃ p ∈ db.products, p.id = m.product_id) :
    (top_movers db days limit now).Pairwise (fun a b => b.moved ≤ a.moved) ∧
    (top_movers db days limit now).length =
      min limit (groupRows db now days).length ∧
    (∀ r ∈ top_movers db days limit now,
      r.moved = movedSum (windowMovements db now days) r.product_id ∧
      (∃ p ∈ db.products, p.id = r.product_id ∧ r.sku = p.sku ∧ r.name = p.name) ∧
      (∃ m ∈ db.movements, inWindow now days m = true ∧
        m.product_id = r.product_id)) ∧
    (∀ pid : Nat,
      (∃ m ∈ db.movements, inWindow now days m = true ∧ m.product_id = pid) →
      (∀ r ∈ top_movers db days limit now, r.product_id ≠ pid) →
      ∀ r ∈ top_movers db days limit now,
        movedSum (windowMovements db now days) pid ≤ r.moved) := by
  have hperm : ((groupRows db now days).mergeSort movedDesc).Perm
      (groupRows db now days) := List.mergeSort_perm _ _
  have htrans : ∀ a b c : Nat × Int,
      movedDesc a b = true → movedDesc b c = true → movedDesc a c = true := by
    intro a b c hab hbc
    simp only [movedDesc, decide_eq_true_eq] at hab hbc ⊢
    exact le_trans hbc hab
  have htotal : ∀ a b : Nat × Int, (movedDesc a b || movedDesc b a) = true := by
    intro a b
    simp only [movedDesc, Bool.or_eq_true, decide_eq_true_eq]
    exact le_total _ _
  have hsorted : ((groupRows db now days).mergeSort movedDesc).Pairwise
      (fun a b => movedDesc a b = true) :=
    List.sorted_mergeSort htrans htotal (groupRows db now days)
  have hGint : ∀ a ∈ groupRows db now days, ∃ p ∈ db.products, p.id = a.1 := by
    intro a ha
    obtain ⟨-, m, hm, _, hpidm⟩ := groupRows_spec db now days a ha
    obtain ⟨p, hp, hpidp⟩ := hint m hm
    exact ⟨p, hp, by rw [hpidp, hpidm]⟩
  have hTsub : ∀ a ∈ ((groupRows db now days).mergeSort movedDesc).take limit,
      a ∈ groupRows db now days :=
    fun a ha => (hperm.mem_iff).mp (List.take_subset _ _ ha)
  have hTsome : ∀ a ∈ ((groupRows db now days).mergeSort movedDesc).take limit,
      (annotateRow db a).isSome = true :=
    fun a ha => annotateRow_isSome db a (hGint a (hTsub a ha))
  have hTpair : (((groupRows db now days).mergeSort movedDesc).take limit).Pairwise
      (fun a b => movedDesc a b = true) :=
    List.Pairwise.sublist (List.take_sublist limit _) hsorted
  refine ⟨?_, ?_, ?_, ?_⟩
  · show ((((groupRows db now days).mergeSort movedDesc).take limit).filterMap
      (annotateRow db)).Pairwise (fun a b => b.moved ≤ a.moved)
    rw [List.pairwise_filterMap]
    refine hTpair.imp ?_
    intro a b hab x hx y hy
    obtain ⟨hxm, -, -⟩ := annotateRow_spec db a x hx
    obtain ⟨hym, -, -⟩ := annotateRow_spec db b y hy
    rw [hxm, hym]
    simpa [movedDesc] using hab
  · show ((((groupRows db now days).mergeSort movedDesc).take limit).filterMap
      (annotateRow db)).length = min limit (groupRows db now days).length
    rw [length_filterMap_of_isSome _ _ hTsome, List.length_take, hperm.length_eq]
  · intro r hr
    obtain ⟨a, haT, hfa⟩ := List.mem_filterMap.mp hr
    obtain ⟨hmoved, hpid, p, hp, hpid2, hsku, hname⟩ := annotateRow_spec db a r hfa
    obtain ⟨ha2, m, hm, hw, hmpid⟩ := groupRows_spec db now days a (hTsub a haT)
    refine ⟨?_, ⟨p, hp, ?_, hsku, hname⟩, ⟨m, hm, hw, ?_⟩⟩
    · rw [hmoved, hpid]; exact ha2
    · rw [hpid]; exact hpid2
    · rw [hpid]; exact hmpid
  · intro pid hwin hnot r hr
    have hg : (pid, movedSum (windowMovements db now days) pid) ∈
        groupRows db now days := mem_groupRows db now days pid hwin
    have hs2 : (pid, movedSum (windowMovements db now days) pid) ∈
        (groupRows db now days).mergeSort movedDesc := hperm.mem_iff.mpr hg
    have hsplit := List.take_append_drop limit
      ((groupRows db now days).mergeSort movedDesc)
    rw [← hsplit] at hs2
    rcases List.mem_append.mp hs2 with hT2 | hD
    · exfalso
      obtain ⟨tm, htm⟩ := Option.isSome_iff_exists.mp (hTsome _ hT2)
      obtain ⟨-, htmpid, -⟩ := annotateRow_spec db _ tm htm
      have htmres : tm ∈ (((groupRows db now days).mergeSort movedDesc).take
          limit).filterMap (annotateRow db) :=
        List.mem_filterMap.mpr ⟨_, hT2, htm⟩
      exact hnot tm htmres htmpid
    · obtain ⟨a, haT, hfa⟩ := List.mem_filterMap.mp hr
      obtain ⟨hmoved, -, -⟩ := annotateRow_spec db a r hfa
      have hps : ((((groupRows db now days).mergeSort movedDesc).take limit) ++
          ((groupRows db now days).mergeSort movedDesc).drop limit).Pairwise
          (fun a b => movedDesc a b = true) := by
        rw [hsplit]; exact hsorted
      have hcross := (List.pairwise_append.mp hps).2.2 a haT _ hD
      rw [hmoved]
      simpa [movedDesc] using hcross

/-- Witness for C9 at the spec's scenario: movements `[(P1,-3),(P1,+3),
(P2,-1)]`, all within the 30-day window, with `limit` 10. -/
theorem top_movers_correct_witness :
    (top_movers dbC9 30 10 100).Pairwise (fun a b => b.moved ≤ a.moved) ∧
    (top_movers dbC9 30 10 100).length =
      min 10 (groupRows dbC9 100 30).length ∧
    (∀ r ∈ top_movers dbC9 30 10 100,
      r.moved = movedSum (windowMovements dbC9 100 30) r.product_id ∧
      (∃ p ∈ dbC9.products, p.id = r.product_id ∧ r.sku = p.sku ∧ r.name = p.name) ∧
      (∃ m ∈ dbC9.movements, inWindow 100 30 m = true ∧
        m.product_id = r.product_id)) ∧
    (∀ pid : Nat,
      (∃ m ∈ dbC9.movements, inWindow 100 30 m = true ∧ m.product_id = pid) →
      (∀ r ∈ top_movers dbC9 30 10 100, r.product_id ≠ pid) →
      ∀ r ∈ top_movers dbC9 30 10 100,
        movedSum (windowMovements dbC9 100 30) pid ≤ r.moved) :=
  top_movers_correct dbC9 30 10 100 (by decide)
